import Mathlib

set_option maxRecDepth 4000
set_option allowUnsafeReducibility true
attribute [local semireducible] Rat.add Rat.sub Rat.mul Rat.inv

/-!
Shallow embedding of the ShiftSync analytics core.

Part 1 models `src/Pipeline/preprocess.py`: the curve-inflection threshold
detector `find_sensitive_threshold` and the per-order-type driver loop.
Machine floats are modelled by exact rationals; the external
Savitzky-Golay filter (`scipy.signal.savgol_filter`) is an opaque
collaborator and appears as explicit function parameters
(`smooth1`, `smooth2`); scipy's filter preserves array length.
Python exceptions are modelled by an explicit error type.
-/

/-- A row of the joined bills/venues dataframe, restricted to the two columns
`find_sensitive_threshold` reads (`order_take_out_type_label`,
`order_duration_minutes`). -/
structure OrderRow where
  order_take_out_type_label : String
  order_duration_minutes : ℚ
deriving DecidableEq, Repr

/-- Python exceptions that the modelled code can raise: `typeError` models the
`TypeError` that `np.diff` raises over a list of `None`s (empty column →
`polars` quantile yields null), `valueError` models the `ValueError` that
sklearn estimators raise when `n_samples < n_clusters`, and
`unboundLocalError` models reading `non_linear_index` before assignment. -/
inductive PyError where
  | typeError
  | valueError
  | unboundLocalError
deriving DecidableEq, Repr

deriving instance DecidableEq for Except

/-- Result dictionary of `find_sensitive_threshold`. -/
structure ThresholdResult where
  non_linear_quantile : ℚ
  non_linear_value : ℚ
deriving DecidableEq, Repr

/-- `np.arange start stop step`: the grid `start, start+step, …` of
`⌈(stop-start)/step⌉` points (stop excluded). -/
def arange (start stop step : ℚ) : List ℚ :=
  (List.range (Int.ceil ((stop - start) / step)).toNat).map
    (fun k => start + (k : ℚ) * step)

/-- `np.diff`: consecutive differences `l[i+1] - l[i]`. -/
def diffQ (l : List ℚ) : List ℚ :=
  (l.zip l.tail).map (fun p => p.2 - p.1)

/-- Insertion of a rational into an ascending-sorted list. -/
def insertAscQ (x : ℚ) : List ℚ → List ℚ
  | [] => [x]
  | y :: ys => if x ≤ y then x :: y :: ys else y :: insertAscQ x ys

/-- Ascending sort of a rational list (used to model the quantile lookup). -/
def sortAscQ (l : List ℚ) : List ℚ := l.foldr insertAscQ []

/-- Model of `polars` `Series.quantile q` with its default interpolation
"nearest": the sorted element at index `round(q * (n-1))`. -/
def columnQuantile (vals : List ℚ) (q : ℚ) : ℚ :=
  let s := sortAscQ vals
  s.getD (Int.floor (q * ((s.length - 1 : ℕ) : ℚ) + 1/2)).toNat 0

/-- Maximum of a rational list (`0` on the empty list, which the modelled code
never reaches). -/
def maxQ : List ℚ → ℚ
  | [] => 0
  | x :: xs => xs.foldl max x

/-- `np.max(np.abs l)` (`0` on the empty list, never reached). -/
def maxAbsQ (l : List ℚ) : ℚ := maxQ (l.map (fun x => |x|))

/-- `np.argmax`: index of the first occurrence of the maximum. -/
def argmaxQ (l : List ℚ) : Nat := l.findIdx (fun x => decide (x = maxQ l))

/-- Position of the first element strictly above `t`, if any. -/
def firstAbove (t : ℚ) : List ℚ → Option Nat
  | [] => none
  | x :: xs => if t < x then some 0 else (firstAbove t xs).map (fun j => j + 1)

/-- The `for i in range(start, len): if l[i] > t: … break` scan of
`find_sensitive_threshold`: the first index `i ≥ start` with `t < l[i]`,
if any. -/
def scanFrom (l : List ℚ) (t : ℚ) (i : Nat) : Option Nat :=
  (firstAbove t (l.drop i)).map (fun j => i + j)

/-- The second derivative array divided by its maximum absolute value
(line 49 of `preprocess.py`). -/
def normalizedSSD (ssd : List ℚ) : List ℚ := ssd.map (fun x => x / maxAbsQ ssd)

/-- The second-derivative branch of `find_sensitive_threshold` after the
second smoothing pass: normalize by the maximum absolute value, scan from
`int(len * 0.1)` for the first value exceeding `0.15` and return that index
plus one, falling back to `np.argmax(smooth_second_derivatives) + 1`.
(`0/0 = 0` in `ℚ` plays the role of NaN: its comparison with the threshold
is false either way.) -/
def nonLinearIndexRaw (ssd : List ℚ) : Nat :=
  match scanFrom (normalizedSSD ssd) (15/100) (ssd.length / 10) with
  | some i => i + 1
  | none => argmaxQ ssd + 1

/-- `find_sensitive_threshold` (src/Pipeline/preprocess.py lines 27-67).
`smooth1` and `smooth2` stand for the two `savgol_filter` calls (lines 43
and 48). The filter on line 33 is computed but never used, exactly as in the
source: the quantile curve on line 37 is built from the `df` argument.
The final clamp models `min(max(0, i), len(quantiles) - 2)` (the index is a
natural number, so `max(0, ·)` is the identity). -/
def find_sensitive_threshold (smooth1 smooth2 : List ℚ → List ℚ)
    (df : List OrderRow) (order_type : String)
    (quantile_min quantile_max quantile_step : ℚ) (method : String) :
    Except PyError ThresholdResult :=
  let _type_df := df.filter (fun r => r.order_take_out_type_label == order_type)
  let quantiles := arange quantile_min quantile_max quantile_step
  if df.isEmpty then
    -- empty column: every quantile is null, `np.diff` over `None`s raises
    .error .typeError
  else
    let quantile_values :=
      quantiles.map (fun q => columnQuantile (df.map (fun r => r.order_duration_minutes)) q)
    let slopes := List.zipWith (fun a b => a / b) (diffQ quantile_values) (diffQ quantiles)
    let smooth_slopes := smooth1 slopes
    if method == "second_derivative" then
      let second_derivatives := diffQ smooth_slopes
      let smooth_second_derivatives := smooth2 second_derivatives
      let non_linear_index := min (nonLinearIndexRaw smooth_second_derivatives) (quantiles.length - 2)
      .ok ⟨quantiles.getD non_linear_index 0, quantile_values.getD non_linear_index 0⟩
    else
      -- any other method skips the only assignment to `non_linear_index`,
      -- which line 60 then reads
      .error .unboundLocalError

/-- The body of the driver loop (src/Pipeline/preprocess.py lines 74-77): the
dataframe is filtered to one order type and handed to
`find_sensitive_threshold` with the script's parameters
(`quantile_min=0.935`, `quantile_max=0.985`, `quantile_step=0.001`,
default method `second_derivative`). -/
def thresholdForType (smooth1 smooth2 : List ℚ → List ℚ)
    (df : List OrderRow) (t : String) : Except PyError ThresholdResult :=
  find_sensitive_threshold smooth1 smooth2
    (df.filter (fun r => r.order_take_out_type_label == t)) t
    (187/200) (197/200) (1/1000) "second_derivative"

/-- `df["order_take_out_type_label"].unique()` (order modelled by
`List.dedup`; `polars` does not fix the order). -/
def order_types (df : List OrderRow) : List String :=
  (df.map (fun r => r.order_take_out_type_label)).dedup

/-- The mapping order type → threshold built by the driver loop
(src/Pipeline/preprocess.py lines 70-79). -/
def thresholds_per_type (smooth1 smooth2 : List ℚ → List ℚ)
    (df : List OrderRow) : List (String × Except PyError ThresholdResult) :=
  (order_types df).map (fun t => (t, thresholdForType smooth1 smooth2 df t))

/-!
Part 2 models `src/Pipeline/Scripts/model_segmentation.py`
(`analyze_peak_hours`). The three sklearn clustering estimators are
external collaborators: each appears as a label-assignment parameter
`List ℚ → List Nat`, guarded by sklearn's own `n_samples ≥ n_clusters`
validation. `polars` group and unique order is engine-dependent and is
modelled by `List.dedup`; `DataFrame.sort` is modelled by a stable sort.
-/

/-- A row of the hourly dataframe given to `analyze_peak_hours`
(`concept`, `hour`, `normalized_order_count`). -/
structure HourlyRow where
  concept : String
  hour : Nat
  normalized_order_count : ℚ
deriving DecidableEq, Repr

/-- Mean of a rational list (`polars` mean; `0` on the empty list, which the
modelled group-by never produces). -/
def meanQ (l : List ℚ) : ℚ := l.sum / (l.length : ℚ)

/-- `data.group_by(['concept','hour']).agg(mean('normalized_order_count'))`
(lines 37-41): one row per distinct (concept, hour) pair, carrying the mean
count of its rows. -/
def concept_hourly_avg (rows : List HourlyRow) : List HourlyRow :=
  ((rows.map (fun r => (r.concept, r.hour))).dedup).map
    (fun k => ⟨k.1, k.2,
      meanQ ((rows.filter (fun r => r.concept == k.1 && r.hour == k.2)).map
        (fun r => r.normalized_order_count))⟩)

/-- The per-concept hourly series (line 50), reduced to (hour, count)
pairs: one pair per distinct observed hour of the concept. -/
def conceptDataPairs (rows : List HourlyRow) (concept : String) : List (Nat × ℚ) :=
  ((concept_hourly_avg rows).filter (fun r => r.concept == concept)).map
    (fun r => (r.hour, r.normalized_order_count))

/-- Mean `normalized_order_count` of the rows labelled `c`
(the `cluster_mean` aggregation, lines 69-73). -/
def clusterMean (data : List (Nat × ℚ)) (labels : List Nat) (c : Nat) : ℚ :=
  meanQ (((data.zip labels).filter (fun p => p.2 == c)).map (fun p => p.1.2))

/-- The `(cluster, cluster_mean)` frame of lines 69-74, one row per
distinct label (group order modelled by `List.dedup`). -/
def cluster_means (data : List (Nat × ℚ)) (labels : List Nat) : List (Nat × ℚ) :=
  labels.dedup.map (fun c => (c, clusterMean data labels c))

/-- Insertion into a descending-sorted list of (cluster, mean) pairs;
on ties the inserted (originally earlier) element stays first, modelling a
stable descending sort. -/
def insertDesc (x : Nat × ℚ) : List (Nat × ℚ) → List (Nat × ℚ)
  | [] => [x]
  | y :: ys => if y.2 ≤ x.2 then x :: y :: ys else y :: insertDesc x ys

/-- `.sort('cluster_mean', descending=True)` (line 73), modelled as a
stable insertion sort. -/
def sortDesc (l : List (Nat × ℚ)) : List (Nat × ℚ) := l.foldr insertDesc []

/-- `cluster_means[0, 'cluster']` (line 75): the first cluster after the
descending sort on mean. -/
def peak_cluster (data : List (Nat × ℚ)) (labels : List Nat) : Nat :=
  ((sortDesc (cluster_means data labels)).headD (0, 0)).1

/-- The hours assigned to the peak cluster (lines 78-82). -/
def peakHours (data : List (Nat × ℚ)) (labels : List Nat) : List Nat :=
  ((data.zip labels).filter (fun p => p.2 == peak_cluster data labels)).map
    (fun p => p.1.1)

/-- sklearn's input validation shared by `KMeans(n_clusters=3)`,
`GaussianMixture(n_components=3)` and `AgglomerativeClustering(n_clusters=3)`:
`fit_predict` on fewer samples than clusters raises a `ValueError`;
otherwise the estimator (the opaque `assign` collaborator) labels the
points. -/
def fitPredict3 (assign : List ℚ → List Nat) (x : List ℚ) :
    Except PyError (List Nat) :=
  if x.length < 3 then .error .valueError else .ok (assign x)

/-- One clustering block of `analyze_peak_hours` (each of lines 59-82,
85-108, 111-134): when the method is enabled, run the guarded estimator on
the concept's counts and record `(name, peak hours)`; a raised error
propagates. -/
def methodEntry (name : String) (assign : List ℚ → List Nat) (enabled : Bool)
    (data : List (Nat × ℚ)) : Except PyError (List (String × List Nat)) :=
  if enabled then
    match fitPredict3 assign (data.map (fun p => p.2)) with
    | .error e => .error e
    | .ok labels => .ok [(name, peakHours data labels)]
  else .ok []

/-- `peak_hours_by_method` after the three clustering blocks (lines 56-134):
the enabled methods in program order, each with its peak-hour set; the
first raised error aborts the whole call. -/
def peak_hours_by_method (ak ag aa : List ℚ → List Nat)
    (kmeans gmm agglo : Bool) (data : List (Nat × ℚ)) :
    Except PyError (List (String × List Nat)) :=
  match methodEntry "kmeans" ak kmeans data with
  | .error e => .error e
  | .ok l1 =>
    match methodEntry "gmm" ag gmm data with
    | .error e => .error e
    | .ok l2 =>
      match methodEntry "agglo" aa agglo data with
      | .error e => .error e
      | .ok l3 => .ok (l1 ++ l2 ++ l3)

/-- `sum(1 for method, hours in peak_hours_by_method.items() if hour in
hours)` (line 144). -/
def overlap_counts (peakSets : List (String × List Nat)) (h : Nat) : Nat :=
  (peakSets.filter (fun m => decide (h ∈ m.2))).length

/-- `'High (3)' / 'Medium (2)' / 'Low (1)' / 'None (0)'` from
`overlap_count` (lines 161-167). -/
def overlap_category (n : Nat) : String :=
  if n = 3 then "High (3)"
  else if n = 2 then "Medium (2)"
  else if n = 1 then "Low (1)"
  else "None (0)"

/-- One row of the overlap frame. -/
structure AgreementRow where
  hour : Nat
  overlap_count : Nat
  normalized_order_count : Option ℚ
  category : String
deriving DecidableEq, Repr

/-- Left join on `hour` (line 153): one output row per match, a null count
when the hour is unobserved. -/
def leftJoinRows (lefts : List (Nat × Nat)) (data : List (Nat × ℚ)) :
    List (Nat × Nat × Option ℚ) :=
  lefts.flatMap (fun l =>
    if (data.filter (fun d => d.1 == l.1)).isEmpty then [(l.1, l.2, none)]
    else (data.filter (fun d => d.1 == l.1)).map (fun d => (l.1, l.2, some d.2)))

/-- The overlap frame of lines 138-167: all 24 hours with their overlap
counts, left-joined with the concept's hourly series and labelled with the
overlap category. -/
def overlap_df (peakSets : List (String × List Nat)) (data : List (Nat × ℚ)) :
    List AgreementRow :=
  (leftJoinRows ((List.range 24).map (fun h => (h, overlap_counts peakSets h)))
      data).map
    (fun r => ⟨r.1, r.2.1, r.2.2, overlap_category r.2.1⟩)

/-- The guarded overlap block (line 137): it runs only when overlap
analysis is requested and at least one clustering method produced a peak
set. -/
def overlap_analysis (overlap : Bool) (peakSets : List (String × List Nat))
    (data : List (Nat × ℚ)) : Option (List AgreementRow) :=
  if overlap && decide (0 < peakSets.length) then some (overlap_df peakSets data)
  else none

/-- `analyze_peak_hours` restricted to one concept: the per-method peak
hours and, when produced, the agreement rows. -/
def analyze_concept (ak ag aa : List ℚ → List Nat)
    (kmeans gmm agglo overlap : Bool) (rows : List HourlyRow)
    (concept : String) :
    Except PyError (List (String × List Nat) × Option (List AgreementRow)) :=
  match peak_hours_by_method ak ag aa kmeans gmm agglo
      (conceptDataPairs rows concept) with
  | .error e => .error e
  | .ok ps => .ok (ps, overlap_analysis overlap ps (conceptDataPairs rows concept))

/-!
Spec-side definitions, used only to compare a claim's wording with the
code (refinement comparison); they follow the claim text, not the source.
-/

/-- Number of rows assigned to cluster `c`. -/
def clusterSize (data : List (Nat × ℚ)) (labels : List Nat) (c : Nat) : Nat :=
  ((data.zip labels).filter (fun p => p.2 == c)).length

/-- The hours assigned to cluster `c`. -/
def clusterHours (data : List (Nat × ℚ)) (labels : List Nat) (c : Nat) : List Nat :=
  ((data.zip labels).filter (fun p => p.2 == c)).map (fun p => p.1.1)

/-- Insertion into an ascending-sorted list of naturals. -/
def insertAscN (x : Nat) : List Nat → List Nat
  | [] => [x]
  | y :: ys => if x ≤ y then x :: y :: ys else y :: insertAscN x ys

/-- Ascending sort of a list of naturals. -/
def sortAscN (l : List Nat) : List Nat := l.foldr insertAscN []

/-- Strict lexicographic order on lists of naturals. -/
def lexLtN : List Nat → List Nat → Bool
  | [], [] => false
  | [], _ :: _ => true
  | _ :: _, [] => false
  | a :: as, b :: bs => if a < b then true else if b < a then false else lexLtN as bs

/-- Claim C2's selection preference, as the claim words it: strictly higher
mean first; on exactly equal means the group with fewer hours; on equal
sizes the group whose (sorted) member hours are numerically smallest. -/
def specBetter (data : List (Nat × ℚ)) (labels : List Nat) (c d : Nat) : Bool :=
  decide (clusterMean data labels d < clusterMean data labels c) ||
    (decide (clusterMean data labels c = clusterMean data labels d) &&
      (decide (clusterSize data labels c < clusterSize data labels d) ||
        (decide (clusterSize data labels c = clusterSize data labels d) &&
          lexLtN (sortAscN (clusterHours data labels c))
            (sortAscN (clusterHours data labels d)))))

/-- The peak group claim C2 describes: the best cluster under `specBetter`
(the claim's rule is a strict total preference on the clusters of a
concept's labelling, so any traversal order yields the same group). -/
def peakClusterSpecRule (data : List (Nat × ℚ)) (labels : List Nat) : Nat :=
  match labels.dedup with
  | [] => 0
  | c :: cs => cs.foldl (fun best x => if specBetter data labels x best then x else best) c

/-- Claim C8's scan as literally stated: the start index is `⌊0.1 × N⌋`
where `N` is the quantile-grid length, the first normalized value exceeding
`0.15` at position `i` yields index `i + 1`, otherwise
`argmax(second_diff) + 1`, clamped to `[0, N-2]`. -/
def nonLinearIndexClaimC8 (ssd : List ℚ) (qlen : Nat) : Nat :=
  match scanFrom (normalizedSSD ssd) (15/100) (qlen / 10) with
  | some i => min (i + 1) (qlen - 2)
  | none => min (argmaxQ ssd + 1) (qlen - 2)

/-!
Claims about the threshold detector (C1, C9, C10).
-/

/-- Claim C1: in the driver loop of `preprocess.py`, the grouping by order
type (line 75) precedes curve-building, so each entry of
`thresholds_per_type` is `find_sensitive_threshold` applied to only that
order type's rows, and the `(quantile, value)` pair produced for an order
type depends only on that type's rows of the duration column: two
dataframes agreeing on the rows of a type yield the same threshold
for that type. -/
theorem threshold_per_group (s1 s2 : List ℚ → List ℚ) (df df2 : List OrderRow)
    (t : String) (v : Except PyError ThresholdResult) :
    ((t, v) ∈ thresholds_per_type s1 s2 df →
      v = find_sensitive_threshold s1 s2
        (df.filter (fun r => r.order_take_out_type_label == t)) t
        (187/200) (197/200) (1/1000) "second_derivative") ∧
    (df.filter (fun r => r.order_take_out_type_label == t) =
        df2.filter (fun r => r.order_take_out_type_label == t) →
      thresholdForType s1 s2 df t = thresholdForType s1 s2 df2 t) := by
  constructor
  · intro h
    simp only [thresholds_per_type, List.mem_map] at h
    obtain ⟨t', _, heq⟩ := h
    obtain ⟨rfl, rfl⟩ := Prod.mk.injEq .. ▸ heq
    rfl
  · intro h
    unfold thresholdForType
    rw [h]

/-- Witness for claim C1 at concrete inputs. -/
theorem threshold_per_group_witness :
    (("dinein",
        find_sensitive_threshold id id
          (([⟨"dinein", 5⟩] : List OrderRow).filter
            (fun r => r.order_take_out_type_label == "dinein")) "dinein"
          (187/200) (197/200) (1/1000) "second_derivative") ∈
      thresholds_per_type id id [⟨"dinein", 5⟩]) ∧
    (([⟨"dinein", (5:ℚ)⟩] : List OrderRow).filter
        (fun r => r.order_take_out_type_label == "dinein") =
      ([⟨"dinein", 5⟩, ⟨"takeout", 9⟩] : List OrderRow).filter
        (fun r => r.order_take_out_type_label == "dinein")) ∧
    thresholdForType id id [⟨"dinein", 5⟩] "dinein" =
      thresholdForType id id [⟨"dinein", 5⟩, ⟨"takeout", 9⟩] "dinein" :=
  ⟨by decide, by decide,
    (threshold_per_group id id [⟨"dinein", 5⟩] [⟨"dinein", 5⟩, ⟨"takeout", 9⟩]
      "dinein" (Except.ok ⟨117/125, 5⟩)).2 (by decide)⟩

/-- Claim C9 counterexample: a group holding a single sample — far too few
to form any smoothing window of length 15 — does not fail with an
`InsufficientDataError`: `find_sensitive_threshold` returns an ordinary
result (the quantile grid, not the sample count, determines the length of
the array handed to the filter, and here the slope array is identically
zero, on which any linear filter such as Savitzky-Golay acts as the
identity). -/
theorem insufficient_data_counterexample :
    find_sensitive_threshold id id [⟨"dinein", 5⟩] "dinein"
      (187/200) (197/200) (1/1000) "second_derivative" =
      .ok ⟨117/125, 5⟩ := by decide

/-- Claim C9 (amended): `find_sensitive_threshold` performs no explicit
sample-count check and defines no `InsufficientDataError`: every nonempty
group produces an ordinary result whatever its sample count, and an empty
group fails with a `TypeError` at the slope computation instead. -/
theorem no_sample_count_gate (s1 s2 : List ℚ → List ℚ) (df : List OrderRow)
    (t : String) :
    (df ≠ [] → ∃ r, find_sensitive_threshold s1 s2 df t
      (187/200) (197/200) (1/1000) "second_derivative" = .ok r) ∧
    (df = [] → find_sensitive_threshold s1 s2 df t
      (187/200) (197/200) (1/1000) "second_derivative" = .error .typeError) := by
  constructor
  · intro h
    unfold find_sensitive_threshold
    rw [if_neg (by simpa [List.isEmpty_iff] using h)]
    exact ⟨_, by rfl⟩
  · intro h
    subst h
    rfl

/-- Witness for claim C9 at a concrete one-sample group. -/
theorem no_sample_count_gate_witness :
    (([⟨"dinein", (5:ℚ)⟩] : List OrderRow) ≠ []) ∧
    (∃ r, find_sensitive_threshold id id [⟨"dinein", 5⟩] "dinein"
      (187/200) (197/200) (1/1000) "second_derivative" = .ok r) :=
  ⟨by decide, (no_sample_count_gate id id [⟨"dinein", 5⟩] "dinein").1 (by decide)⟩

/-- Claim C10 counterexample: on the empty dataframe with a method other
than `second_derivative`, the failure is the `TypeError` raised at the
slope computation (quantiles of an empty column are null), not an
unbound-local error — so the claim's "for every input dataframe" is too
strong. -/
theorem unbound_local_counterexample :
    find_sensitive_threshold id id ([] : List OrderRow) "dinein"
      (187/200) (197/200) (1/1000) "median" = .error .typeError := by decide

/-- Claim C10 (amended): for every nonempty dataframe and every method
other than `second_derivative`, `find_sensitive_threshold` fails with the
unhandled unbound-local error from reading `non_linear_index`, which is
assigned only inside the `second_derivative` branch. -/
theorem unbound_local_on_other_methods (s1 s2 : List ℚ → List ℚ)
    (df : List OrderRow) (t m : String) (hdf : df ≠ [])
    (hm : m ≠ "second_derivative") :
    find_sensitive_threshold s1 s2 df t (187/200) (197/200) (1/1000) m =
      .error .unboundLocalError := by
  unfold find_sensitive_threshold
  rw [if_neg (by simpa [List.isEmpty_iff] using hdf)]
  rw [if_neg (by simpa using hm)]

/-- Witness for claim C10 at a concrete dataframe and method. -/
theorem unbound_local_witness :
    (([⟨"dinein", (5:ℚ)⟩] : List OrderRow) ≠ [] ∧
      ("median" : String) ≠ "second_derivative") ∧
    find_sensitive_threshold id id [⟨"dinein", 5⟩] "dinein"
      (187/200) (197/200) (1/1000) "median" = .error .unboundLocalError :=
  ⟨⟨by decide, by decide⟩,
    unbound_local_on_other_methods id id [⟨"dinein", 5⟩] "dinein" "median"
      (by decide) (by decide)⟩

/-!
Claims about the agreement categories and the zero-method case (C5, C4).
-/

/-- Claim C5: the category is a pure function of `overlap_count` under the
fixed mapping 3→High, 2→Medium, 1→Low and everything else (in particular 0)
→None; the four categories cover every count exhaustively and pairwise
disjointly. -/
theorem category_mapping (n : Nat) :
    (overlap_category n = "High (3)" ↔ n = 3) ∧
    (overlap_category n = "Medium (2)" ↔ n = 2) ∧
    (overlap_category n = "Low (1)" ↔ n = 1) ∧
    (overlap_category n = "None (0)" ↔ (n ≠ 1 ∧ n ≠ 2 ∧ n ≠ 3)) ∧
    (overlap_category n = "High (3)" ∨ overlap_category n = "Medium (2)" ∨
      overlap_category n = "Low (1)" ∨ overlap_category n = "None (0)") := by
  rcases n with _ | _ | _ | _ | m
  · decide
  · decide
  · decide
  · decide
  · have h3 : m + 1 + 1 + 1 + 1 ≠ 3 := by omega
    have h2 : m + 1 + 1 + 1 + 1 ≠ 2 := by omega
    have h1 : m + 1 + 1 + 1 + 1 ≠ 1 := by omega
    have e : overlap_category (m + 1 + 1 + 1 + 1) = "None (0)" := by
      unfold overlap_category
      rw [if_neg h3, if_neg h2, if_neg h1]
    rw [e]
    refine ⟨⟨fun h => absurd h (by decide), fun h => absurd h h3⟩,
      ⟨fun h => absurd h (by decide), fun h => absurd h h2⟩,
      ⟨fun h => absurd h (by decide), fun h => absurd h h1⟩,
      ⟨fun _ => ⟨h1, h2, h3⟩, fun _ => rfl⟩, by simp⟩

/-- Claim C4 counterexample: with zero clustering methods enabled (and
overlap analysis requested) the analyzer returns no agreement rows at all —
the guard `len(peak_hours_by_method) > 0` on line 137 skips the whole
overlap block — instead of the claimed 24 all-NONE rows with counts
populated where data exists. -/
theorem zero_methods_counterexample :
    analyze_concept (fun _ => []) (fun _ => []) (fun _ => [])
      false false false true
      [⟨"Cafe", 8, 1⟩, ⟨"Cafe", 9, 5⟩, ⟨"Cafe", 12, 2⟩, ⟨"Cafe", 18, 6⟩,
        ⟨"Cafe", 19, 4⟩]
      "Cafe" = .ok ([], none) := by decide

/-- Claim C4 (amended): when zero clustering methods are enabled the
analyzer skips the overlap block entirely and returns an empty method map
and no agreement rows, whatever the overlap flag and the input data. -/
theorem zero_methods_no_rows (ak ag aa : List ℚ → List Nat) (overlap : Bool)
    (rows : List HourlyRow) (c : String) :
    analyze_concept ak ag aa false false false overlap rows c =
      .ok ([], none) := by
  unfold analyze_concept peak_hours_by_method methodEntry overlap_analysis
  simp

/-!
Claim C2: the peak-group selection rule.
-/

/-- Membership through `insertDesc`. -/
theorem mem_insertDesc (x y : Nat × ℚ) (l : List (Nat × ℚ)) :
    y ∈ insertDesc x l ↔ y = x ∨ y ∈ l := by
  induction l with
  | nil => simp [insertDesc]
  | cons z zs ih =>
    unfold insertDesc
    split_ifs with h
    · simp [List.mem_cons]
    · rw [List.mem_cons, ih, List.mem_cons]
      tauto

/-- `insertDesc` adds one element. -/
theorem length_insertDesc (x : Nat × ℚ) (l : List (Nat × ℚ)) :
    (insertDesc x l).length = l.length + 1 := by
  induction l with
  | nil => rfl
  | cons z zs ih =>
    unfold insertDesc
    split_ifs with h
    · rfl
    · simp [List.length_cons, ih]

/-- `sortDesc` preserves length. -/
theorem length_sortDesc (l : List (Nat × ℚ)) :
    (sortDesc l).length = l.length := by
  induction l with
  | nil => rfl
  | cons x xs ih =>
    show (insertDesc x (sortDesc xs)).length = xs.length + 1
    rw [length_insertDesc, ih]

/-- The head of the descending sort is a member attaining the maximal mean
key. -/
theorem headD_sortDesc_max (l : List (Nat × ℚ)) (d : Nat × ℚ) (hl : l ≠ []) :
    (sortDesc l).headD d ∈ l ∧ ∀ x ∈ l, x.2 ≤ ((sortDesc l).headD d).2 := by
  induction l with
  | nil => exact absurd rfl hl
  | cons x xs ih =>
    by_cases hne : xs = []
    · subst hne
      exact ⟨by simp [sortDesc, insertDesc], by simp [sortDesc, insertDesc]⟩
    · obtain ⟨hmem, hmax⟩ := ih hne
      have hlen : 0 < (sortDesc xs).length := by
        rw [length_sortDesc]
        exact List.length_pos_of_ne_nil hne
      obtain ⟨w, ws, hw⟩ := List.exists_cons_of_ne_nil (List.ne_nil_of_length_pos hlen)
      have hsx : sortDesc (x :: xs) = insertDesc x (sortDesc xs) := rfl
      rw [hw] at hmem hmax
      simp only [List.headD_cons] at hmem hmax
      rw [hsx, hw]
      unfold insertDesc
      split_ifs with hcmp
      · refine ⟨by simp, ?_⟩
        intro y hy
        simp only [List.headD_cons]
        rcases List.mem_cons.mp hy with rfl | hy2
        · exact le_refl _
        · exact le_trans (hmax y hy2) hcmp
      · refine ⟨List.mem_cons_of_mem x hmem, ?_⟩
        intro y hy
        simp only [List.headD_cons]
        rcases List.mem_cons.mp hy with rfl | hy2
        · exact le_of_not_le hcmp
        · exact hmax y hy2

/-- Claim C2 counterexample: on hours 0,1,2 with counts 1,3,2 and labels
0,0,1 the two clusters tie on mean (both 2) and cluster 1 has strictly
fewer hours, so the claim's rule selects cluster 1 (peak hours {2}) — but
the code keeps cluster 0 and reports peak hours {0, 1}: the fewest-hours
tie-break the claim describes is absent from the code. -/
theorem peak_tie_counterexample :
    clusterMean [(0, (1:ℚ)), (1, 3), (2, 2)] [0, 0, 1] 0 =
      clusterMean [(0, (1:ℚ)), (1, 3), (2, 2)] [0, 0, 1] 1 ∧
    clusterSize [(0, (1:ℚ)), (1, 3), (2, 2)] [0, 0, 1] 1 <
      clusterSize [(0, (1:ℚ)), (1, 3), (2, 2)] [0, 0, 1] 0 ∧
    peakClusterSpecRule [(0, (1:ℚ)), (1, 3), (2, 2)] [0, 0, 1] = 1 ∧
    peak_cluster [(0, (1:ℚ)), (1, 3), (2, 2)] [0, 0, 1] = 0 ∧
    peakHours [(0, (1:ℚ)), (1, 3), (2, 2)] [0, 0, 1] = [0, 1] := by decide

/-- Claim C2 (amended): each method's peak cluster always attains the
maximal cluster mean, and whenever one cluster's mean is strictly highest
that cluster is selected; exact ties are resolved by the engine's group and
sort order (the first-encountered tied cluster in this model), not by group
size or member hours. -/
theorem peak_cluster_attains_max (data : List (Nat × ℚ)) (labels : List Nat)
    (hl : labels ≠ []) :
    peak_cluster data labels ∈ labels.dedup ∧
    (∀ c ∈ labels.dedup,
      clusterMean data labels c ≤ clusterMean data labels (peak_cluster data labels)) ∧
    (∀ p ∈ labels.dedup,
      (∀ c ∈ labels.dedup, c ≠ p →
        clusterMean data labels c < clusterMean data labels p) →
      peak_cluster data labels = p) := by
  have hdne : labels.dedup ≠ [] := by
    simpa [List.dedup_eq_nil] using hl
  have hcne : cluster_means data labels ≠ [] := by
    unfold cluster_means
    simpa using hdne
  obtain ⟨hmem, hmax⟩ := headD_sortDesc_max (cluster_means data labels) (0, 0) hcne
  obtain ⟨c, hc, hfc⟩ := List.mem_map.mp hmem
  have hpc : peak_cluster data labels = c := by
    unfold peak_cluster
    rw [← hfc]
  have hipk : clusterMean data labels (peak_cluster data labels) =
      ((sortDesc (cluster_means data labels)).headD (0, 0)).2 := by
    rw [hpc, ← hfc]
  refine ⟨hpc ▸ hc, ?_, ?_⟩
  · intro c' hc'
    have hmem2 : (c', clusterMean data labels c') ∈ cluster_means data labels :=
      List.mem_map.mpr ⟨c', hc', rfl⟩
    have h2 := hmax _ hmem2
    rw [hipk]
    exact h2
  · intro p hp hstrict
    by_contra hne
    have hle : clusterMean data labels p ≤
        clusterMean data labels (peak_cluster data labels) := by
      have hmem2 : (p, clusterMean data labels p) ∈ cluster_means data labels :=
        List.mem_map.mpr ⟨p, hp, rfl⟩
      have h2 := hmax _ hmem2
      rw [hipk]
      exact h2
    have hlt := hstrict _ (hpc ▸ hc) hne
    exact absurd (lt_of_le_of_lt hle hlt) (lt_irrefl _)

/-- Witness for claim C2 at a concrete labelling with a strict maximum. -/
theorem peak_cluster_attains_max_witness :
    (([0, 1, 2] : List Nat) ≠ []) ∧
    (peak_cluster [(0, (1:ℚ)), (1, 3), (2, 2)] [0, 1, 2] ∈
        ([0, 1, 2] : List Nat).dedup ∧
      (∀ c ∈ ([0, 1, 2] : List Nat).dedup,
        clusterMean [(0, (1:ℚ)), (1, 3), (2, 2)] [0, 1, 2] c ≤
          clusterMean [(0, (1:ℚ)), (1, 3), (2, 2)] [0, 1, 2]
            (peak_cluster [(0, (1:ℚ)), (1, 3), (2, 2)] [0, 1, 2])) ∧
      (∀ p ∈ ([0, 1, 2] : List Nat).dedup,
        (∀ c ∈ ([0, 1, 2] : List Nat).dedup, c ≠ p →
          clusterMean [(0, (1:ℚ)), (1, 3), (2, 2)] [0, 1, 2] c <
            clusterMean [(0, (1:ℚ)), (1, 3), (2, 2)] [0, 1, 2] p) →
        peak_cluster [(0, (1:ℚ)), (1, 3), (2, 2)] [0, 1, 2] = p)) :=
  ⟨by decide, peak_cluster_attains_max [(0, 1), (1, 3), (2, 2)] [0, 1, 2] (by decide)⟩

/-!
Claim C3: behaviour on fewer than 3 distinct observed hours.
-/

/-- Claim C3 counterexample: a concept with only 2 distinct observed hours
does not fail with a `DegenerateInputError` (no such error exists in the
code): the first enabled sklearn estimator's validation raises a
`ValueError`, which propagates out of `analyze_peak_hours` and aborts the
whole analysis. -/
theorem degenerate_counterexample :
    analyze_concept (fun _ => []) (fun _ => []) (fun _ => []) true true true
      true [⟨"c", 8, 1⟩, ⟨"c", 9, 5⟩] "c" = .error .valueError := by decide

/-- Claim C3 (amended): for a concept with fewer than 3 distinct observed
hours and at least one enabled method, the analysis fails with the sklearn
`ValueError` (not a `DegenerateInputError`, which the code does not
define); with at least 3 distinct observed hours every enabled clustering
runs and the analysis returns a result. -/
theorem degenerate_input_behaviour (ak ag aa : List ℚ → List Nat)
    (kmeans gmm agglo overlap : Bool) (rows : List HourlyRow) (c : String) :
    ((conceptDataPairs rows c).length < 3 → (kmeans || gmm || agglo) = true →
      analyze_concept ak ag aa kmeans gmm agglo overlap rows c =
        .error .valueError) ∧
    (3 ≤ (conceptDataPairs rows c).length →
      ∃ res, analyze_concept ak ag aa kmeans gmm agglo overlap rows c =
        .ok res) := by
  constructor
  · intro hlen hen
    have hgate : ∀ assign : List ℚ → List Nat,
        fitPredict3 assign ((conceptDataPairs rows c).map (fun p => p.2)) =
          .error .valueError := by
      intro assign
      unfold fitPredict3
      rw [if_pos]
      rwa [List.length_map]
    unfold analyze_concept peak_hours_by_method methodEntry
    cases kmeans <;> cases gmm <;> cases agglo <;> simp_all [hgate]
  · intro hlen
    have hgate : ∀ assign : List ℚ → List Nat,
        fitPredict3 assign ((conceptDataPairs rows c).map (fun p => p.2)) =
          .ok (assign ((conceptDataPairs rows c).map (fun p => p.2))) := by
      intro assign
      unfold fitPredict3
      rw [if_neg]
      rw [List.length_map]
      omega
    unfold analyze_concept peak_hours_by_method methodEntry
    cases kmeans <;> cases gmm <;> cases agglo <;> simp [hgate]

/-- Witness for claim C3 at concrete inputs: 2 distinct hours fail with the
sklearn error, 3 distinct hours succeed. -/
theorem degenerate_input_witness :
    ((conceptDataPairs [⟨"c", 8, 1⟩, ⟨"c", 9, 5⟩] "c").length < 3 ∧
      (true || true || true) = true ∧
      analyze_concept (fun _ => []) (fun _ => []) (fun _ => []) true true true
        true [⟨"c", 8, 1⟩, ⟨"c", 9, 5⟩] "c" = .error .valueError) ∧
    (3 ≤ (conceptDataPairs [⟨"c", 8, 1⟩, ⟨"c", 9, 5⟩, ⟨"c", 12, 2⟩] "c").length ∧
      ∃ res, analyze_concept (fun _ => []) (fun _ => []) (fun _ => []) true
        true true true [⟨"c", 8, 1⟩, ⟨"c", 9, 5⟩, ⟨"c", 12, 2⟩] "c" = .ok res) :=
  ⟨⟨by decide, by decide,
    (degenerate_input_behaviour (fun _ => []) (fun _ => []) (fun _ => [])
      true true true true [⟨"c", 8, 1⟩, ⟨"c", 9, 5⟩] "c").1
      (by decide) (by decide)⟩,
   ⟨by decide,
    (degenerate_input_behaviour (fun _ => []) (fun _ => []) (fun _ => [])
      true true true true [⟨"c", 8, 1⟩, ⟨"c", 9, 5⟩, ⟨"c", 12, 2⟩] "c").2
      (by decide)⟩⟩

/-!
Claims C6 and C7: shape and content of the agreement table.
-/

/-- The (concept, hour) keys of the aggregated frame are exactly the
deduplicated keys of the input. -/
theorem cha_keys (rows : List HourlyRow) :
    (concept_hourly_avg rows).map (fun r => (r.concept, r.hour)) =
      (rows.map (fun r => (r.concept, r.hour))).dedup := by
  unfold concept_hourly_avg
  rw [List.map_map]
  exact List.map_id' _

/-- The aggregated frame carries no duplicate (concept, hour) key. -/
theorem cha_keys_nodup (rows : List HourlyRow) :
    ((concept_hourly_avg rows).map (fun r => (r.concept, r.hour))).Nodup := by
  rw [cha_keys]
  exact List.nodup_dedup _

/-- A concept's per-hour series has no duplicate hour: the group-by yields
one row per distinct (concept, hour) pair. -/
theorem conceptData_hours_nodup (rows : List HourlyRow) (c : String) :
    ((conceptDataPairs rows c).map Prod.fst).Nodup := by
  unfold conceptDataPairs
  rw [List.map_map]
  have hsub : List.Sublist
      (((concept_hourly_avg rows).filter
        (fun r => r.concept == c)).map (fun r => (r.concept, r.hour)))
      ((concept_hourly_avg rows).map (fun r => (r.concept, r.hour))) :=
    List.Sublist.map _ (List.filter_sublist _)
  have hnd : (((concept_hourly_avg rows).filter
      (fun r => r.concept == c)).map (fun r => (r.concept, r.hour))).Nodup :=
    (cha_keys_nodup rows).sublist hsub
  have hinj := List.inj_on_of_nodup_map hnd
  have hfil : ((concept_hourly_avg rows).filter
      (fun r => r.concept == c)).Nodup := hnd.of_map
  refine List.Nodup.map_on ?_ hfil
  intro x hx y hy hxy
  have hcx : x.concept = c := by
    simpa using (List.mem_filter.mp hx).2
  have hcy : y.concept = c := by
    simpa using (List.mem_filter.mp hy).2
  refine hinj hx hy ?_
  have hh : x.hour = y.hour := hxy
  rw [hcx, hcy, hh]

/-- At most one row of a key-nodup series matches a given hour. -/
theorem filter_key_length_le_one (data : List (Nat × ℚ))
    (h : (data.map Prod.fst).Nodup) (k : Nat) :
    (data.filter (fun d => d.1 == k)).length ≤ 1 := by
  induction data with
  | nil => simp
  | cons d ds ih =>
    rw [List.map_cons, List.nodup_cons] at h
    by_cases hk : d.1 = k
    · have hnil : ds.filter (fun d => d.1 == k) = [] := by
        apply List.filter_eq_nil_iff.mpr
        intro x hx
        simp only [beq_iff_eq]
        intro hxk
        exact h.1 (hk ▸ hxk ▸ List.mem_map_of_mem Prod.fst hx)
      rw [List.filter_cons]
      simp [hk, hnil]
    · rw [List.filter_cons]
      have hne : (d.1 == k) = false := by simpa using hk
      simp only [hne, Bool.false_eq_true, if_false]
      exact ih h.2

/-- The hours of a left join against a key-nodup series are exactly the
left keys: each left row matches at most one right row, so it contributes
exactly one output row. -/
theorem leftJoin_fst (lefts : List (Nat × Nat)) (data : List (Nat × ℚ))
    (h : (data.map Prod.fst).Nodup) :
    (leftJoinRows lefts data).map (fun r => r.1) = lefts.map (fun l => l.1) := by
  induction lefts with
  | nil => rfl
  | cons l ls ih =>
    unfold leftJoinRows
    rw [List.flatMap_cons, List.map_append]
    unfold leftJoinRows at ih
    rw [ih, List.map_cons]
    by_cases hms : (data.filter (fun d => d.1 == l.1)).isEmpty
    · simp [hms]
    · rw [if_neg (by simpa using hms)]
      have hlen : (data.filter (fun d => d.1 == l.1)).length = 1 := by
        have h1 := filter_key_length_le_one data h l.1
        have h2 : (data.filter (fun d => d.1 == l.1)).length ≠ 0 := by
          intro hz
          exact hms (List.isEmpty_iff.mpr (List.length_eq_zero.mp hz))
        omega
      obtain ⟨m, hm⟩ := List.length_eq_one.mp hlen
      rw [hm]
      rfl

/-- Claim C6: whenever the overlap block runs, it produces exactly 24
agreement rows, one per hour 0–23, in order, with no duplicate and no
missing hour — the per-concept series has one row per distinct hour, so
the left join cannot duplicate any of the 24 grid hours. -/
theorem agreement_rows_complete (peakSets : List (String × List Nat))
    (rows : List HourlyRow) (c : String) :
    (overlap_df peakSets (conceptDataPairs rows c)).length = 24 ∧
    (overlap_df peakSets (conceptDataPairs rows c)).map (fun r => r.hour) =
      List.range 24 := by
  have hnd := conceptData_hours_nodup rows c
  have hmap : (overlap_df peakSets (conceptDataPairs rows c)).map
      (fun r => r.hour) = List.range 24 := by
    unfold overlap_df
    rw [List.map_map]
    have hj := leftJoin_fst
      ((List.range 24).map (fun h => (h, overlap_counts peakSets h)))
      (conceptDataPairs rows c) hnd
    rw [show ((fun r : AgreementRow => r.hour) ∘
        (fun r : Nat × Nat × Option ℚ =>
          (⟨r.1, r.2.1, r.2.2, overlap_category r.2.1⟩ : AgreementRow))) =
        (fun r : Nat × Nat × Option ℚ => r.1) from rfl]
    rw [hj, List.map_map]
    exact List.map_id' _
  refine ⟨?_, hmap⟩
  have hlen := congrArg List.length hmap
  rwa [List.length_map, List.length_range] at hlen

/-- A row produced by one clustering block holds at most one method. -/
theorem methodEntry_length_le_one (name : String) (assign : List ℚ → List Nat)
    (e : Bool) (data : List (Nat × ℚ)) (l : List (String × List Nat))
    (h : methodEntry name assign e data = .ok l) : l.length ≤ 1 := by
  unfold methodEntry at h
  cases e with
  | false =>
    simp only [Bool.false_eq_true, if_false] at h
    cases h
    simp
  | true =>
    simp only [if_true] at h
    cases hf : fitPredict3 assign (data.map (fun p => p.2)) with
    | error e2 => rw [hf] at h; cases h
    | ok labels =>
      rw [hf] at h
      cases h
      simp

/-- Claim C7: each agreement row's `overlap_count` equals the number of
enabled methods whose peak-hour set contains that row's hour, and it never
exceeds the number of enabled methods, which never exceeds 3. -/
theorem overlap_count_spec (ak ag aa : List ℚ → List Nat) (k g a : Bool)
    (data : List (Nat × ℚ)) (ps : List (String × List Nat))
    (row : AgreementRow)
    (hps : peak_hours_by_method ak ag aa k g a data = .ok ps)
    (hrow : row ∈ overlap_df ps data) :
    row.overlap_count = (ps.filter (fun m => decide (row.hour ∈ m.2))).length ∧
    row.overlap_count ≤ ps.length ∧ ps.length ≤ 3 := by
  have hps3 : ps.length ≤ 3 := by
    unfold peak_hours_by_method at hps
    cases h1 : methodEntry "kmeans" ak k data with
    | error e1 => rw [h1] at hps; cases hps
    | ok l1 =>
      rw [h1] at hps
      cases h2 : methodEntry "gmm" ag g data with
      | error e2 => rw [h2] at hps; cases hps
      | ok l2 =>
        rw [h2] at hps
        cases h3 : methodEntry "agglo" aa a data with
        | error e3 => rw [h3] at hps; cases hps
        | ok l3 =>
          rw [h3] at hps
          cases hps
          have m1 := methodEntry_length_le_one _ ak k data l1 h1
          have m2 := methodEntry_length_le_one _ ag g data l2 h2
          have m3 := methodEntry_length_le_one _ aa a data l3 h3
          simp only [List.length_append]
          omega
  have hcount : row.overlap_count =
      (ps.filter (fun m => decide (row.hour ∈ m.2))).length := by
    unfold overlap_df at hrow
    obtain ⟨r, hr, hrr⟩ := List.mem_map.mp hrow
    obtain ⟨l, hl, hlr⟩ := List.mem_flatMap.mp hr
    obtain ⟨h0, h24, hlh⟩ := List.mem_map.mp hl
    have hr1 : r.1 = l.1 ∧ r.2.1 = l.2 := by
      by_cases hms : (data.filter (fun d => d.1 == l.1)).isEmpty
      · rw [if_pos (by simpa using hms)] at hlr
        rw [List.mem_singleton] at hlr
        rw [hlr]
        exact ⟨rfl, rfl⟩
      · rw [if_neg (by simpa using hms)] at hlr
        obtain ⟨d, hd, hdr⟩ := List.mem_map.mp hlr
        rw [← hdr]
        exact ⟨rfl, rfl⟩
    have hhour : row.hour = h0 := by
      rw [← hrr]
      show r.1 = h0
      rw [hr1.1, ← hlh]
    have hoc : row.overlap_count = overlap_counts ps h0 := by
      rw [← hrr]
      show r.2.1 = overlap_counts ps h0
      rw [hr1.2, ← hlh]
    rw [hoc, hhour]
    rfl
  refine ⟨hcount, ?_, hps3⟩
  rw [hcount]
  exact List.length_filter_le _ _

/-- Witness for claim C7 at a concrete run: one enabled method, peak hour
1, checked on the hour-0 agreement row. -/
theorem overlap_count_spec_witness :
    (peak_hours_by_method (fun _ => [0, 1, 2]) (fun _ => []) (fun _ => [])
        true false false [(0, (1:ℚ)), (1, 3), (2, 2)] =
      .ok [("kmeans", [1])]) ∧
    ((⟨0, 0, some 1, "None (0)"⟩ : AgreementRow) ∈
      overlap_df [("kmeans", [1])] [(0, (1:ℚ)), (1, 3), (2, 2)]) ∧
    ((⟨0, 0, some 1, "None (0)"⟩ : AgreementRow).overlap_count =
      (([("kmeans", [1])] : List (String × List Nat)).filter
        (fun m => decide ((⟨0, 0, some 1, "None (0)"⟩ : AgreementRow).hour ∈
          m.2))).length ∧
      (⟨0, 0, some 1, "None (0)"⟩ : AgreementRow).overlap_count ≤
        ([("kmeans", [1])] : List (String × List Nat)).length ∧
      ([("kmeans", [1])] : List (String × List Nat)).length ≤ 3) :=
  ⟨by decide, by decide,
    overlap_count_spec (fun _ => [0, 1, 2]) (fun _ => []) (fun _ => [])
      true false false [(0, 1), (1, 3), (2, 2)] [("kmeans", [1])]
      ⟨0, 0, some 1, "None (0)"⟩ (by decide) (by decide)⟩

/-!
Claim C8: the inflection-index scan of the second-derivative method.
-/

/-- A successful `firstAbove` returns the first position strictly above the
threshold. -/
theorem firstAbove_some (t : ℚ) :
    ∀ (l : List ℚ) (j : Nat), firstAbove t l = some j →
      j < l.length ∧ t < l.getD j 0 ∧ ∀ k, k < j → l.getD k 0 ≤ t := by
  intro l
  induction l with
  | nil =>
    intro j h
    exact absurd h (by simp [firstAbove])
  | cons x xs ih =>
    intro j h
    unfold firstAbove at h
    split_ifs at h with hx
    · rw [Option.some.injEq] at h
      subst h
      exact ⟨by simp, by simpa using hx,
        fun k hk => absurd hk (Nat.not_lt_zero k)⟩
    · cases hfa : firstAbove t xs with
      | none => rw [hfa] at h; simp at h
      | some j0 =>
        rw [hfa] at h
        simp at h
        obtain ⟨h1, h2, h3⟩ := ih j0 hfa
        subst h
        refine ⟨by simpa using Nat.succ_lt_succ h1, by simpa using h2, ?_⟩
        intro k hk
        cases k with
        | zero => simpa using le_of_not_lt hx
        | succ k' =>
          have hk' : k' < j0 := Nat.lt_of_succ_lt_succ hk
          simpa using h3 k' hk'

/-- A failed `firstAbove` means no element is strictly above the
threshold. -/
theorem firstAbove_none (t : ℚ) :
    ∀ l : List ℚ, firstAbove t l = none →
      ∀ k, k < l.length → l.getD k 0 ≤ t := by
  intro l
  induction l with
  | nil =>
    intro _ k hk
    exact absurd hk (by simp)
  | cons x xs ih =>
    intro h k hk
    unfold firstAbove at h
    split_ifs at h with hx
    cases k with
    | zero => simpa using le_of_not_lt hx
    | succ k' =>
      have hk' : k' < xs.length := by simpa using Nat.lt_of_succ_lt_succ hk
      simpa using ih (Option.map_eq_none'.mp h) k' hk'

/-- `getD` through `drop`. -/
theorem getD_drop_eq (l : List ℚ) (i j : Nat) :
    (l.drop i).getD j 0 = l.getD (i + j) 0 := by
  simp [List.getD_eq_getElem?_getD, List.getElem?_drop]

/-- Claim C8 (amended): in the second-derivative method the scan starts at
`⌊0.1 × (N − 2)⌋` — ten percent of the smoothed second-difference array,
whose length is the quantile-grid length `N` minus 2 — not at `⌊0.1 × N⌋`;
from there the first normalized value exceeding `0.15` at position `i`
yields index `i + 1`, otherwise the fallback is
`argmax(smooth_second_derivatives) + 1`, and the result is clamped to
`[0, N − 2]`, the returned quantile and value being taken at the clamped
index. -/
theorem nonLinearIndex_characterization (ssd : List ℚ) (qlen : Nat)
    (hshape : ssd.length = qlen - 2) :
    min (nonLinearIndexRaw ssd) (qlen - 2) ≤ qlen - 2 ∧
    ((∃ i, (qlen - 2) / 10 ≤ i ∧ i < ssd.length ∧
        (15/100 : ℚ) < (normalizedSSD ssd).getD i 0 ∧
        (∀ k, (qlen - 2) / 10 ≤ k → k < i →
          (normalizedSSD ssd).getD k 0 ≤ 15/100) ∧
        min (nonLinearIndexRaw ssd) (qlen - 2) = min (i + 1) (qlen - 2)) ∨
      ((∀ k, (qlen - 2) / 10 ≤ k → k < ssd.length →
          (normalizedSSD ssd).getD k 0 ≤ 15/100) ∧
        min (nonLinearIndexRaw ssd) (qlen - 2) =
          min (argmaxQ ssd + 1) (qlen - 2))) := by
  have hlen : (normalizedSSD ssd).length = ssd.length := List.length_map _ _
  refine ⟨min_le_right _ _, ?_⟩
  rw [← hshape]
  cases hscan : scanFrom (normalizedSSD ssd) (15/100) (ssd.length / 10) with
  | some i =>
    left
    have hraw : nonLinearIndexRaw ssd = i + 1 := by
      unfold nonLinearIndexRaw
      rw [hscan]
    have h2 := hscan
    unfold scanFrom at h2
    cases hfa : firstAbove (15/100) ((normalizedSSD ssd).drop (ssd.length / 10)) with
    | none => rw [hfa] at h2; simp at h2
    | some j =>
      rw [hfa] at h2
      simp at h2
      obtain ⟨hj1, hj2, hj3⟩ := firstAbove_some _ _ _ hfa
      rw [List.length_drop, hlen] at hj1
      rw [getD_drop_eq] at hj2
      refine ⟨i, ?_, ?_, ?_, ?_, ?_⟩
      · omega
      · omega
      · rw [← h2]
        exact hj2
      · intro k hk1 hk2
        have hk3 : k - ssd.length / 10 < j := by omega
        have hle := hj3 _ hk3
        rw [getD_drop_eq] at hle
        have hke : ssd.length / 10 + (k - ssd.length / 10) = k := by omega
        rwa [hke] at hle
      · rw [hraw]
  | none =>
    right
    have hraw : nonLinearIndexRaw ssd = argmaxQ ssd + 1 := by
      unfold nonLinearIndexRaw
      rw [hscan]
    have h2 := hscan
    unfold scanFrom at h2
    rw [Option.map_eq_none'] at h2
    have hall := firstAbove_none _ _ h2
    refine ⟨?_, ?_⟩
    · intro k hk1 hk2
      have hklt : k - ssd.length / 10 <
          ((normalizedSSD ssd).drop (ssd.length / 10)).length := by
        rw [List.length_drop, hlen]
        omega
      have hle := hall _ hklt
      rw [getD_drop_eq] at hle
      have hke : ssd.length / 10 + (k - ssd.length / 10) = k := by omega
      rwa [hke] at hle
    · rw [hraw]

/-- Witness for claim C8 at a concrete two-element array with grid length
4: the first value already exceeds the threshold. -/
theorem nonLinearIndex_characterization_witness :
    (([(1:ℚ), 1] : List ℚ).length = 4 - 2) ∧
    (min (nonLinearIndexRaw [(1:ℚ), 1]) (4 - 2) ≤ 4 - 2 ∧
      ((∃ i, (4 - 2) / 10 ≤ i ∧ i < ([(1:ℚ), 1] : List ℚ).length ∧
          (15/100 : ℚ) < (normalizedSSD [(1:ℚ), 1]).getD i 0 ∧
          (∀ k, (4 - 2) / 10 ≤ k → k < i →
            (normalizedSSD [(1:ℚ), 1]).getD k 0 ≤ 15/100) ∧
          min (nonLinearIndexRaw [(1:ℚ), 1]) (4 - 2) = min (i + 1) (4 - 2)) ∨
        ((∀ k, (4 - 2) / 10 ≤ k → k < ([(1:ℚ), 1] : List ℚ).length →
            (normalizedSSD [(1:ℚ), 1]).getD k 0 ≤ 15/100) ∧
          min (nonLinearIndexRaw [(1:ℚ), 1]) (4 - 2) =
            min (argmaxQ [(1:ℚ), 1] + 1) (4 - 2)))) :=
  ⟨by decide, nonLinearIndex_characterization [1, 1] 4 (by decide)⟩

/-- Claim C8 counterexample: for a grid of length `N = 20` the smoothed
second difference has 18 entries and the code starts its scan at
`int(18 * 0.1) = 1`, not at `⌊0.1 × 20⌋ = 2` as the claim's wording
prescribes: on this array the code finds the exceedance at position 1 and
returns clamped index 2, while the claim's scan misses it and lands on
position 9, returning 10. -/
theorem scan_start_counterexample :
    ([1/10, 1/2, 1/10, 1/10, 1/10, 1/10, 1/10, 1/10, 1/10, 1, 1/10, 1/10,
        1/10, 1/10, 1/10, 1/10, 1/10, (1:ℚ)/10] : List ℚ).length = 20 - 2 ∧
    min (nonLinearIndexRaw
      [1/10, 1/2, 1/10, 1/10, 1/10, 1/10, 1/10, 1/10, 1/10, 1, 1/10, 1/10,
        1/10, 1/10, 1/10, 1/10, 1/10, (1:ℚ)/10]) (20 - 2) = 2 ∧
    nonLinearIndexClaimC8
      [1/10, 1/2, 1/10, 1/10, 1/10, 1/10, 1/10, 1/10, 1/10, 1, 1/10, 1/10,
        1/10, 1/10, 1/10, 1/10, 1/10, (1:ℚ)/10] 20 = 10 := by decide

/-- Shape fact backing claim C8's hypothesis: with length-preserving
smoothing filters (scipy's Savitzky-Golay preserves length), the smoothed
second-difference array inside `find_sensitive_threshold` has exactly the
quantile-grid length minus 2. -/
theorem smooth_second_length (smooth1 smooth2 : List ℚ → List ℚ)
    (h1 : ∀ l, (smooth1 l).length = l.length)
    (h2 : ∀ l, (smooth2 l).length = l.length) (qv qs : List ℚ)
    (hq : qv.length = qs.length) :
    (smooth2 (diffQ (smooth1 (List.zipWith (fun a b => a / b)
      (diffQ qv) (diffQ qs))))).length = qs.length - 2 := by
  have hd : ∀ l : List ℚ, (diffQ l).length = l.length - 1 := by
    intro l
    simp only [diffQ, List.length_map, List.length_zip, List.length_tail]
    omega
  rw [h2, hd, h1, List.length_zipWith, hd, hd, hq]
  omega

/-- Witness for the shape fact at the identity filters and a 4-point
grid. -/
theorem smooth_second_length_witness :
    ((∀ l : List ℚ, (id l).length = l.length) ∧
      ([(1:ℚ), 2, 3, 5] : List ℚ).length = ([(0:ℚ), 1, 2, 3] : List ℚ).length) ∧
    (id (diffQ (id (List.zipWith (fun a b => a / b)
      (diffQ [(1:ℚ), 2, 3, 5]) (diffQ [(0:ℚ), 1, 2, 3]))))).length =
      ([(0:ℚ), 1, 2, 3] : List ℚ).length - 2 :=
  ⟨⟨fun _ => rfl, by decide⟩,
    smooth_second_length id id (fun _ => rfl) (fun _ => rfl)
      [1, 2, 3, 5] [0, 1, 2, 3] (by decide)⟩
